import Mathlib

/-!
Verification development for the investing.com economic-calendar scraper
(`python/investing_scraper.py`).  The Python pipeline is shallowly embedded:
pure transformations become Lean functions over explicit data, the network
and browser boundaries (`make_api_request`, `get_cookies_with_selenium`)
become oracle parameters, and module-level mutable state (the cookie cache)
becomes explicit state passing.  HTML fragments already parsed by
BeautifulSoup are modelled as structured rows/cells/spans at exactly the
granularity the Python selectors touch, with each element carrying its raw
text (single text node per element).
-/

set_option maxRecDepth 4000

/-! ## Python string primitives -/

/-- Characters treated as whitespace by Python `str.strip()` (and, for the
fixed date format, by the whitespace run in `_strptime`): ASCII whitespace,
the information separators, NEXT LINE, NO-BREAK SPACE and the Unicode
space characters. -/
def isPySpace (c : Char) : Bool :=
  [0x09, 0x0a, 0x0b, 0x0c, 0x0d, 0x1c, 0x1d, 0x1e, 0x1f, 0x20, 0x85, 0xa0,
   0x1680, 0x2000, 0x2001, 0x2002, 0x2003, 0x2004, 0x2005, 0x2006, 0x2007,
   0x2008, 0x2009, 0x200a, 0x2028, 0x2029, 0x202f, 0x205f, 0x3000].contains c.toNat

/-- Python `s.strip()`: drop leading and trailing whitespace. -/
def pyStrip (s : String) : String :=
  String.mk (((s.data.dropWhile isPySpace).reverse.dropWhile isPySpace).reverse)

/-- Python `s.replace(chr(0xa0), " ")`: each NO-BREAK SPACE becomes a space. -/
def replaceNbsp (s : String) : String :=
  String.mk (s.data.map (fun c => if c.toNat = 0xa0 then ' ' else c))

/-- The `.strip().replace(chr(0xa0), " ")` combination applied to most
extracted fields in `process_extracted_events` (lines 798-813). -/
def cleanField (s : String) : String :=
  replaceNbsp (pyStrip s)

/-- Python `s.replace(pat, rep)` on character lists: non-overlapping,
left-to-right (fuelled by the input length; `pat` is never empty here). -/
def pyReplaceAux (pat rep : List Char) : Nat → List Char → List Char
  | 0, l => l
  | _ + 1, [] => []
  | fuel + 1, c :: cs =>
    if pat.isPrefixOf (c :: cs) then
      rep ++ pyReplaceAux pat rep fuel ((c :: cs).drop pat.length)
    else
      c :: pyReplaceAux pat rep fuel cs

/-- Python `s.replace(pat, rep)` for a non-empty pattern. -/
def pyReplace (s pat rep : String) : String :=
  String.mk (pyReplaceAux pat.data rep.data s.data.length s.data)

/-- Python `s.startswith(pre)`. -/
def pyStartsWith (s pre : String) : Bool :=
  pre.data.isPrefixOf s.data

/-- Digit list to number, most significant first. -/
def natOfDigits (l : List Char) : Nat :=
  l.foldl (fun a c => a * 10 + (c.toNat - 48)) 0

/-! ## The fixed date format `%Y/%m/%d %H:%M:%S`

`process_extracted_events` parses `raw["datetime"]` with
`datetime.strptime(raw_datetime, "%Y/%m/%d %H:%M:%S")` (line 779).
CPython compiles this format to the anchored regex
`(\d\d\d\d)/(1[0-2]|0[1-9]|[1-9])/(3[01]|[12]\d|0[1-9]|[1-9])\s+`
`(2[0-3]|[0-1]\d|\d):([0-5]\d|\d):(6[0-1]|[0-5]\d|\d)` which must consume
the whole string, then builds a `datetime`, which additionally validates
the day against the month length and rejects seconds above 59 and year 0.
Both failure modes raise `ValueError`, caught by the same `except` clause,
so they are folded into a single `none` here.  Numeric fields of one or
two digits behave identically under maximal munch and under the regex
alternation because the character following each field is never a digit. -/

structure PyDateTime where
  year : Nat
  month : Nat
  day : Nat
  hour : Nat
  minute : Nat
  second : Nat
deriving DecidableEq

/-- Gregorian leap year, as `datetime` uses. -/
def isLeapYear (y : Nat) : Bool :=
  y % 4 = 0 && (y % 100 ≠ 0 || y % 400 = 0)

/-- Length of a month, as `datetime` uses. -/
def daysInMonth (y m : Nat) : Nat :=
  if m = 2 then (if isLeapYear y then 29 else 28)
  else if m = 4 ∨ m = 6 ∨ m = 9 ∨ m = 11 then 30
  else 31

/-- Parse a one- or two-digit numeric field lying in `[lo, hi]`; returns the
value and the remaining characters. -/
def parseField (lo hi : Nat) (l : List Char) : Option (Nat × List Char) :=
  match l.span Char.isDigit with
  | (ds, rest) =>
    if 1 ≤ ds.length ∧ ds.length ≤ 2 then
      let v := natOfDigits ds
      if lo ≤ v ∧ v ≤ hi then some (v, rest) else none
    else none

/-- `datetime.strptime(s, "%Y/%m/%d %H:%M:%S")`, returning `none` where the
Python call raises `ValueError`. -/
def parseDateTimeFixed (s : String) : Option PyDateTime :=
  match s.data.span Char.isDigit with
  | (yds, rest) =>
    if yds.length = 4 then
      match rest with
      | '/' :: r1 =>
        match parseField 1 12 r1 with
        | some (m, '/' :: r2) =>
          match parseField 1 31 r2 with
          | some (d, r3) =>
            match r3.span isPySpace with
            | (ws, r4) =>
              if ws.length = 0 then none
              else
                match parseField 0 23 r4 with
                | some (hh, ':' :: r5) =>
                  match parseField 0 59 r5 with
                  | some (mi, ':' :: r6) =>
                    match parseField 0 59 r6 with
                    | some (ss, []) =>
                      let y := natOfDigits yds
                      if 1 ≤ y ∧ d ≤ daysInMonth y m then
                        some ⟨y, m, d, hh, mi, ss⟩
                      else none
                    | _ => none
                  | _ => none
                | _ => none
          | _ => none
        | _ => none
      | _ => none
    else none

/-- Zero-pad to two digits (`%02d`). -/
def pad2 (n : Nat) : String :=
  if n < 10 then "0" ++ toString n else toString n

/-- Zero-pad to four digits (`%04d`). -/
def pad4 (n : Nat) : String :=
  (if n < 10 then "000" else if n < 100 then "00" else if n < 1000 then "0" else "")
    ++ toString n

/-- `datetime.isoformat()` for a whole-second datetime. -/
def isoFormat (dt : PyDateTime) : String :=
  pad4 dt.year ++ "-" ++ pad2 dt.month ++ "-" ++ pad2 dt.day ++ "T"
    ++ pad2 dt.hour ++ ":" ++ pad2 dt.minute ++ ":" ++ pad2 dt.second

/-- Day of week by Sakamoto's method; 0 is Sunday. -/
def dayOfWeek (y m d : Nat) : Nat :=
  let t := [0, 3, 2, 5, 0, 3, 5, 1, 4, 6, 2, 4]
  let y2 := if m < 3 then y - 1 else y
  (y2 + y2 / 4 - y2 / 100 + y2 / 400 + t.getD (m - 1) 0 + d) % 7

def weekdayNames : List String :=
  ["Sunday", "Monday", "Tuesday", "Wednesday", "Thursday", "Friday", "Saturday"]

def monthNames : List String :=
  ["January", "February", "March", "April", "May", "June", "July",
   "August", "September", "October", "November", "December"]

/-- `dt.strftime("%A, %B %d, %Y")` (line 781). -/
def dayLabel (dt : PyDateTime) : String :=
  weekdayNames.getD (dayOfWeek dt.year dt.month dt.day) "" ++ ", "
    ++ monthNames.getD (dt.month - 1) "" ++ " " ++ pad2 dt.day ++ ", "
    ++ toString dt.year

/-! ## Currency-code search

`re.search(r"\b([A-Z]{3})\b", text)` over the `td.flagCur` cell text
(lines 786-790).  Word characters are modelled as ASCII `[A-Za-z0-9_]`;
the surrounding text produced by the site is ASCII apart from the
NO-BREAK SPACE, which is a non-word character in both readings. -/

def isWordChar (c : Char) : Bool :=
  (65 ≤ c.toNat ∧ c.toNat ≤ 90) ∨ (97 ≤ c.toNat ∧ c.toNat ≤ 122)
    ∨ (48 ≤ c.toNat ∧ c.toNat ≤ 57) ∨ c.toNat = 95

def isUpperAZ (c : Char) : Bool :=
  65 ≤ c.toNat ∧ c.toNat ≤ 90

/-- Leftmost match of `\b[A-Z]{3}\b`: `prev` is the character before the
current position, if any. -/
def searchUpper3Aux : Option Char → List Char → Option String
  | _, [] => none
  | prev, c :: cs =>
    let boundaryBefore := match prev with
      | none => true
      | some p => !isWordChar p
    match cs with
    | c2 :: c3 :: rest =>
      if boundaryBefore && isUpperAZ c && isUpperAZ c2 && isUpperAZ c3
          && (rest.head?.map isWordChar |>.getD false) = false then
        some (String.mk [c, c2, c3])
      else searchUpper3Aux (some c) cs
    | _ => searchUpper3Aux (some c) cs

/-- The extracted 3-letter code, or `""` when the regex does not match. -/
def searchUpper3 (s : String) : String :=
  match searchUpper3Aux none s.data with
  | some t => t
  | none => ""

/-! ## Event records

The loosely-typed event dicts are modelled as a single record; keys a code
path does not set are modelled as `""` (`dict.get` with the `""` default is
used at every read site).  `rowtype` models the `"type"` key that only the
holiday fallback sets. -/

structure Event where
  time : String
  datetime : String
  parsed_datetime : String
  day : String
  country : String
  country_code : String
  event : String
  event_url : String
  actual : String
  forecast : String
  previous : String
  impact : String
  event_id : String
  rowtype : String
deriving DecidableEq

/-- A raw event dict as produced by the schema extraction
(`extract_events_with_strategy`, lines 838-873).  `impact_icons` models the
length of the selected icon-element list (the `isinstance` check on line 761
always sees a list here). -/
structure RawEvent where
  event_id : String
  datetime : String
  time : String
  country : String
  country_code : String
  event : String
  event_url : String
  actual : String
  forecast : String
  previous : String
  impact_icons : Nat
deriving DecidableEq

/-- Impact from the filled-icon count (lines 763-770). -/
def deriveImpact (impact_count : Nat) : String :=
  if 3 ≤ impact_count then "High"
  else if impact_count = 2 then "Medium"
  else if impact_count = 1 then "Low"
  else "Medium"

/-- `process_extracted_events` (lines 746-818): impact from the icon count,
ISO conversion of the raw datetime, currency-code extraction, event-id
cleanup, and the drop of events whose cleaned name is empty.  The Python
append loop is written as `filterMap`. -/
def process_extracted_events (raw_events : List RawEvent) : List Event :=
  raw_events.filterMap (fun raw =>
    let impact := deriveImpact raw.impact_icons
    let raw_datetime := raw.datetime
    let pd := if raw_datetime = "" then none else parseDateTimeFixed raw_datetime
    let parsed_datetime := match pd with
      | some dt => isoFormat dt
      | none => ""
    let day := match pd with
      | some dt => dayLabel dt
      | none => ""
    let country_code := searchUpper3 raw.country_code
    let event_id :=
      if pyStartsWith raw.event_id "eventRowId_" then
        pyReplace raw.event_id "eventRowId_" ""
      else raw.event_id
    let event_name := cleanField raw.event
    if event_name = "" then none
    else some
      { time := cleanField raw.time
        datetime := raw_datetime
        parsed_datetime := parsed_datetime
        day := day
        country := pyStrip raw.country
        country_code := country_code
        event := event_name
        event_url := pyStrip raw.event_url
        actual := cleanField raw.actual
        forecast := cleanField raw.forecast
        previous := cleanField raw.previous
        impact := impact
        event_id := event_id
        rowtype := "" })

/-! ## Parsed-markup model

The HTML fragment returned under the response `data` key is consumed twice
over the same BeautifulSoup tree: by the schema extraction
(`extract_events_with_strategy`) and by the holiday fallback
(`_extract_holidays_fallback`).  The tree is modelled at the granularity
the selectors touch: a fragment is a list of `tr` rows; a row has its `id`
and `data-event-datetime` attributes and `td` cells; a cell has its `id`,
classes, descendant spans, descendant anchors, a count of its descendant
`i.grayFullBullishIcon` elements, and its text.  Each element carries one
text node, so `get_text(strip=True)` is `pyStrip` of that text. -/

structure SpanEl where
  classes : List String
  title : Option String
  text : String
deriving DecidableEq

structure AnchorEl where
  href : String
  text : String
deriving DecidableEq

structure Cell where
  id : Option String
  classes : List String
  spans : List SpanEl
  anchors : List AnchorEl
  bullishIcons : Nat
  text : String
deriving DecidableEq

structure Row where
  id : Option String
  dataEventDatetime : Option String
  cells : List Cell
deriving DecidableEq

/-- First cell carrying a class (CSS `td.cls`). -/
def firstCellWithClass (cells : List Cell) (cls : String) : Option Cell :=
  cells.find? (fun c => c.classes.contains cls)

/-- First cell whose id starts with a prefix (CSS selector with `id^=`). -/
def firstCellWithIdPrefixed (cells : List Cell) (pre : String) : Option Cell :=
  cells.find? (fun c => pyStartsWith (c.id.getD "") pre)

/-- Schema extraction of one selected row into a raw event dict
(lines 838-873 applying `ECONOMIC_EVENT_SCHEMA`).  Missing attributes and
selector misses read back as `""` through `dict.get`. -/
def extractRawFromRow (row : Row) : RawEvent :=
  { event_id := row.id.getD ""
    datetime := row.dataEventDatetime.getD ""
    time := (firstCellWithClass row.cells "time").map (fun c => pyStrip c.text) |>.getD ""
    country :=
      ((row.cells.filter (fun c => c.classes.contains "flagCur")).flatMap (fun c => c.spans)
        |>.find? (fun sp => sp.title.isSome)) |>.map (fun sp => sp.title.getD "") |>.getD ""
    country_code := (firstCellWithClass row.cells "flagCur").map (fun c => pyStrip c.text) |>.getD ""
    event :=
      ((row.cells.filter (fun c => c.classes.contains "event")).flatMap (fun c => c.anchors)
        |>.head?) |>.map (fun a => pyStrip a.text) |>.getD ""
    event_url :=
      ((row.cells.filter (fun c => c.classes.contains "event")).flatMap (fun c => c.anchors)
        |>.head?) |>.map (fun a => a.href) |>.getD ""
    actual := (firstCellWithIdPrefixed row.cells "eventActual_").map (fun c => pyStrip c.text) |>.getD ""
    forecast := (firstCellWithIdPrefixed row.cells "eventForecast_").map (fun c => pyStrip c.text) |>.getD ""
    previous := (firstCellWithIdPrefixed row.cells "eventPrevious_").map (fun c => pyStrip c.text) |>.getD ""
    impact_icons :=
      ((row.cells.filter (fun c => c.classes.contains "sentiment")).map (fun c => c.bullishIcons)).sum }

/-- `extract_events_with_strategy` (lines 821-884): select the rows matching
`tr[id^='eventRowId_']`, extract each, and post-process. -/
def extract_events_with_strategy (rows : List Row) : List Event :=
  process_extracted_events
    ((rows.filter (fun r => pyStartsWith (r.id.getD "") "eventRowId_")).map extractRawFromRow)

/-! ## Holiday fallback extraction -/

/-- `extract_text` (lines 1209-1215): `get_text(strip=True)` then the
NO-BREAK SPACE replacement. -/
def extract_text (text : String) : String :=
  replaceNbsp (pyStrip text)

/-- `parse_day_header` (lines 1099-1115): the text of the first
`td.theDay` cell, when one exists. -/
def parse_day_header (row : Row) : Option String :=
  (firstCellWithClass row.cells "theDay").map (fun c => extract_text c.text)

/-- `parse_holiday_row` (lines 1118-1167): a row with at least three cells
whose third cell holds a `span.bold` reading exactly `Holiday` becomes an
event with `impact = "Holiday"`; the name comes from the fourth cell when
present, the country from the titled span of the second cell, and the id
from the row's own `eventRowId_` attribute.  Dict keys the function does
not set are modelled as `""`. -/
def parse_holiday_row (row : Row) : Option Event :=
  match row.cells with
  | c0 :: c1 :: c2 :: rest =>
    match c2.spans.find? (fun sp => sp.classes.contains "bold") with
    | none => none
    | some sp =>
      if extract_text sp.text ≠ "Holiday" then none
      else
        let country := match c1.spans.find? (fun s2 => s2.title.isSome) with
          | some fs => fs.title.getD ""
          | none => ""
        let holiday_name := match rest.head? with
          | some c3 => extract_text c3.text
          | none => ""
        let event_id := match row.id with
          | some rid =>
            if pyStartsWith rid "eventRowId_" then pyReplace rid "eventRowId_" "" else ""
          | none => ""
        some
          { time := extract_text c0.text
            datetime := ""
            parsed_datetime := ""
            day := ""
            country := country
            country_code := ""
            event := holiday_name
            event_url := ""
            actual := ""
            forecast := ""
            previous := ""
            impact := "Holiday"
            event_id := event_id
            rowtype := "holiday" }
  | _ => none

/-- Attach the current day header to a holiday event (`if current_day:
holiday["day"] = current_day`, lines 1196-1197). -/
def attachDay (current_day : Option String) (h : Event) : Event :=
  match current_day with
  | some d => if d = "" then h else { h with day := d }
  | none => h

/-- The row loop of `_extract_holidays_fallback` (lines 1186-1198): a truthy
day header updates the current-day state; otherwise the row is tried as a
holiday row. -/
def holidaysAux (current_day : Option String) : List Row → List Event
  | [] => []
  | row :: rest =>
    match parse_day_header row with
    | some s =>
      if s ≠ "" then holidaysAux (some s) rest
      else
        match parse_holiday_row row with
        | some h => attachDay current_day h :: holidaysAux current_day rest
        | none => holidaysAux current_day rest
    | none =>
      match parse_holiday_row row with
      | some h => attachDay current_day h :: holidaysAux current_day rest
      | none => holidaysAux current_day rest

/-- `_extract_holidays_fallback` (lines 1170-1206). -/
def extract_holidays_fallback (rows : List Row) : List Event :=
  holidaysAux none rows

/-! ## Cross-chunk merge -/

/-- The per-chunk dedup merge of `scrape_economic_calendar`
(lines 1035-1048): an incoming event with a non-empty id already in the
registry is dropped; every other event is appended, recording its id when
non-empty.  The registry set is modelled as a list read by membership. -/
def mergeEvents (acc : List Event × List String) : List Event → List Event × List String
  | [] => acc
  | event :: rest =>
    let event_id := event.event_id
    if event_id ≠ "" ∧ event_id ∈ acc.2 then mergeEvents acc rest
    else
      mergeEvents
        (acc.1 ++ [event], if event_id ≠ "" then event_id :: acc.2 else acc.2) rest

/-! ## Date-range partitioning

Dates are modelled as proleptic-Gregorian ordinals (days since 0001-01-01,
that day being 1), the representation `datetime.toordinal` uses; adding
`timedelta(days = k)` adds `k` and `min` on dates is `min` on ordinals.
The chunk loop of `scrape_economic_calendar` (lines 985-1057) emits
`(current, min (current + days_per_chunk - 1) end)` and restarts from the
day after the chunk end.  The recursion is fuelled by the number of days in
the range; for `days_per_chunk = 0` the Python loop does not terminate, and
every claim assumes `days_per_chunk ≥ 1`. -/

def partitionAux : Nat → Nat → Nat → Nat → List (Nat × Nat)
  | 0, _, _, _ => []
  | fuel + 1, current, endD, dpc =>
    if current ≤ endD then
      (current, min (current + dpc - 1) endD)
        :: partitionAux fuel (min (current + dpc - 1) endD + 1) endD dpc
    else []

def partitionChunks (startD endD dpc : Nat) : List (Nat × Nat) :=
  partitionAux (endD + 1 - startD) startD endD dpc

/-- The days an inclusive chunk covers. -/
def chunkDays (c : Nat × Nat) : List Nat :=
  List.range' c.1 (c.2 + 1 - c.1)

/-- `days_before_year` of the proleptic Gregorian calendar. -/
def daysBeforeYear (y : Nat) : Nat :=
  365 * (y - 1) + (y - 1) / 4 + (y - 1) / 400 - (y - 1) / 100

/-- Days in year `y` strictly before month `m`. -/
def daysBeforeMonth (y m : Nat) : Nat :=
  (List.range (m - 1)).foldl (fun a i => a + daysInMonth y (i + 1)) 0

/-- `datetime.toordinal()`. -/
def dateOrdinal (y m d : Nat) : Nat :=
  daysBeforeYear y + daysBeforeMonth y m + d

/-! ## Orchestrator

`scrape_economic_calendar` (lines 891-1092).  The network boundary is an
oracle `fetch : Nat → ApiOutcome` giving the outcome of `make_api_request`
for the n-th chunk request of the run (chunks are requested strictly in
order, one request per chunk).  The constructors mirror the `except`
clauses of `make_api_request` (lines 706-739), all of which return `None`
to the caller, plus a delivered JSON response whose `data` key holds the
parsed markup fragment (`none` models a missing/empty `data` string). -/

inductive ApiOutcome where
  | timeoutErr : ApiOutcome
  | httpErr : Nat → ApiOutcome
  | requestErr : ApiOutcome
  | jsonErr : ApiOutcome
  | unexpectedErr : ApiOutcome
  | response : Option (List Row) → ApiOutcome
deriving DecidableEq

/-- The fragment a chunk iteration actually processes: `None` responses
(`if not api_response`, line 1014) and responses with a falsy `data`
(line 1021) are both skipped. -/
def chunkFrag : ApiOutcome → Option (List Row)
  | ApiOutcome.response (some html) => some html
  | _ => none

/-- Observable session/cache interactions of one run: the single
`get_cookies` call (line 952) and one `make_api_request` per chunk
(line 1000).  The scraper never clears `_cookies_cache`, so no constructor
is ever emitted for an invalidation; `invalidateCache` exists so that the
absence of invalidations is statable. -/
inductive TraceEv where
  | acquireCookies : TraceEv
  | fetchChunk : Nat → Nat → Nat → TraceEv
  | invalidateCache : TraceEv
deriving DecidableEq

structure LoopState where
  events : List Event
  ids : List String
  chunkNum : Nat
  trace : List TraceEv
deriving DecidableEq

/-- The chunk loop (lines 987-1057): per chunk, request; on a missing
response or missing markup skip to the next chunk; otherwise run both
extractors, merge with dedup, and stop early when `max_events` is set and
reached. -/
def scrapeLoop (fetch : Nat → ApiOutcome) (maxEvents : Option Nat) :
    List (Nat × Nat) → LoopState → LoopState
  | [], s => s
  | chunk :: rest, s =>
    let n := s.chunkNum + 1
    let tr := s.trace ++ [TraceEv.fetchChunk n chunk.1 chunk.2]
    match chunkFrag (fetch n) with
    | some html =>
      let combined := extract_events_with_strategy html ++ extract_holidays_fallback html
      let merged := mergeEvents (s.events, s.ids) combined
      let s2 : LoopState := ⟨merged.1, merged.2, n, tr⟩
      match maxEvents with
      | some m => if m ≤ merged.1.length then s2 else scrapeLoop fetch maxEvents rest s2
      | none => scrapeLoop fetch maxEvents rest s2
    | none => scrapeLoop fetch maxEvents rest ⟨s.events, s.ids, n, tr⟩

/-- The caller-visible result dict (lines 1063-1070 and the failure
returns). -/
structure ScrapeOutput where
  success : Bool
  events : List Event
  date_range : Nat × Nat
  total_events : Nat
  total_pages : Nat
  error_message : Option String
deriving DecidableEq

/-- `scrape_economic_calendar`: cookies are the value `get_cookies`
returned for this call; an empty set aborts (lines 953-961), a disabled
`use_date_splitting` aborts (lines 964-972), and otherwise the chunk loop
runs over the partitioned range and the call always reports success with
the accumulated events and the number of chunks attempted. -/
def scrape_economic_calendar (cookies : List (String × String))
    (fetch : Nat → ApiOutcome) (maxEvents : Option Nat)
    (dateFrom dateTo daysPerChunk : Nat) (useDateSplitting : Bool) :
    ScrapeOutput × List TraceEv :=
  if cookies.isEmpty then
    (⟨false, [], (dateFrom, dateTo), 0, 0, some "Impossible de récupérer les cookies"⟩,
     [TraceEv.acquireCookies])
  else if !useDateSplitting then
    (⟨false, [], (dateFrom, dateTo), 0, 0,
      some "use_date_splitting=False n'est plus supporté. Utilisez use_date_splitting=True (défaut)."⟩,
     [TraceEv.acquireCookies])
  else
    let st := scrapeLoop fetch maxEvents (partitionChunks dateFrom dateTo daysPerChunk)
      ⟨[], [], 0, [TraceEv.acquireCookies]⟩
    (⟨true, st.events, (dateFrom, dateTo), st.events.length, st.chunkNum, none⟩, st.trace)

/-! ## The cookie cache

`get_cookies` (lines 537-565) over the module globals `_cookies_cache` and
`_cookies_cache_timestamp`; time is in seconds, `COOKIES_CACHE_DURATION`
is one hour.  `seleniumCookies` is the dict `get_cookies_with_selenium`
returned — the harvested cookies on success, or `{}` when the browser step
raised (lines 525-531). -/

structure CookiesCacheState where
  cache : Option (List (String × String))
  timestamp : Option Nat
deriving DecidableEq

def COOKIES_CACHE_DURATION : Nat := 3600

/-- `get_cookies(cache)`: on a valid cached entry return it unchanged;
otherwise take the selenium result and, when `cache` is set, store it with
the current time — whether or not it is empty. -/
def get_cookies (cacheFlag : Bool) (st : CookiesCacheState) (now : Nat)
    (seleniumCookies : List (String × String)) :
    List (String × String) × CookiesCacheState :=
  if cacheFlag ∧ st.cache.isSome ∧ st.timestamp.isSome
      ∧ now - st.timestamp.getD 0 < COOKIES_CACHE_DURATION then
    (st.cache.getD [], st)
  else
    let cookies := seleniumCookies
    if cacheFlag then (cookies, ⟨some cookies, some now⟩)
    else (cookies, st)

/-! ## Reference functions used to state the orchestrator claims -/

/-- The fragments of the successfully fetched chunks, in order; chunk
numbering starts after `startNum`. -/
def chunkFragments (fetch : Nat → ApiOutcome) : Nat → List (Nat × Nat) → List (List Row)
  | _, [] => []
  | startNum, _ :: rest =>
    match chunkFrag (fetch (startNum + 1)) with
    | some html => html :: chunkFragments fetch (startNum + 1) rest
    | none => chunkFragments fetch (startNum + 1) rest

/-- Fold the extract-and-merge step over a list of fragments. -/
def accumulateFragments (p : List Event × List String) :
    List (List Row) → List Event × List String
  | [] => p
  | html :: rest =>
    accumulateFragments
      (mergeEvents p (extract_events_with_strategy html ++ extract_holidays_fallback html))
      rest

/-- Number of chunks the loop attempts under a `max_events` limit: chunks
are consumed in order until the first whose merge lifts the accumulated
count to the limit or beyond (failed chunks never trigger the stop). -/
def stopLen (fetch : Nat → ApiOutcome) (m : Nat) :
    Nat → List Event × List String → List (Nat × Nat) → Nat
  | _, _, [] => 0
  | startNum, p, _ :: rest =>
    match chunkFrag (fetch (startNum + 1)) with
    | some html =>
      let merged :=
        mergeEvents p (extract_events_with_strategy html ++ extract_holidays_fallback html)
      if m ≤ merged.1.length then 1
      else 1 + stopLen fetch m (startNum + 1) merged rest
    | none => 1 + stopLen fetch m (startNum + 1) p rest

def isInvalidateEv : TraceEv → Bool
  | TraceEv.invalidateCache => true
  | _ => false

def isAcquireEv : TraceEv → Bool
  | TraceEv.acquireCookies => true
  | _ => false

def isFetchEv : TraceEv → Bool
  | TraceEv.fetchChunk _ _ _ => true
  | _ => false

/-- Cache invalidations recorded strictly between the first and the second
chunk-fetch attempt of a trace. -/
def invalidationsBetweenFirstTwoFetches (tr : List TraceEv) : Nat :=
  (((tr.dropWhile (fun e => !isFetchEv e)).drop 1).takeWhile (fun e => !isFetchEv e)).countP
    isInvalidateEv

/-! ## Concrete sample data -/

/-- A raw event dict with a given icon count and name, other fields empty. -/
def mkIconRaw (n : Nat) (name : String) : RawEvent :=
  ⟨"", "", "", "", "", name, "", "", "", "", n⟩

/-- A raw event row for 2025-12-25 13:30:00 site time. -/
def xmasRaw : RawEvent :=
  ⟨"eventRowId_9", "2025/12/25 13:30:00", "13:30", "United States", " USD",
   "Christmas Day", "/holiday", "", "", "", 0⟩

/-- A raw event row whose datetime string is not in the fixed format. -/
def badDateRaw : RawEvent :=
  ⟨"eventRowId_7", "25/12/2025 13:30", "13:30", "", "", "Retail Sales", "", "", "", "", 1⟩

/-- The event `process_extracted_events` produces from `badDateRaw`. -/
def badDateEvent : Event :=
  ⟨"13:30", "25/12/2025 13:30", "", "", "", "", "Retail Sales", "", "", "", "", "Low", "7", ""⟩

/-- A minimal primary event row: the identifying id attribute plus one
`td.event` cell holding the event anchor. -/
def primaryRow (idnum name : String) : Row :=
  ⟨some ("eventRowId_" ++ idnum), none, [⟨none, ["event"], [], [⟨"/url", name⟩], 0, ""⟩]⟩

/-- A holiday row with only three cells: the `span.bold` marker is present
but there is no fourth cell to carry the holiday name. -/
def holidayNoNameRow : Row :=
  ⟨none, none,
   [⟨none, [], [], [], 0, "All Day"⟩,
    ⟨none, [], [], [], 0, ""⟩,
    ⟨none, [], [⟨["bold"], none, "Holiday"⟩], [], 0, "Holiday"⟩]⟩

/-- An oracle on which every chunk request fails with HTTP 403, the
blocked classification. -/
def blockedFetch : Nat → ApiOutcome := fun _ => ApiOutcome.httpErr 403

/-- An oracle delivering one one-event fragment for the first chunk and a
timeout for every later chunk. -/
def oneGoodChunkFetch : Nat → ApiOutcome := fun n =>
  if n = 1 then ApiOutcome.response (some [primaryRow "100" "Non-Farm Payrolls"])
  else ApiOutcome.timeoutErr

/-- An oracle delivering a three-event fragment for every chunk. -/
def threeEventFetch : Nat → ApiOutcome := fun _ =>
  ApiOutcome.response
    (some [primaryRow "1" "CPI", primaryRow "2" "GDP", primaryRow "3" "PPI"])

/-- An oracle delivering the nameless holiday row for the first chunk. -/
def holidayFragFetch : Nat → ApiOutcome := fun n =>
  if n = 1 then ApiOutcome.response (some [holidayNoNameRow]) else ApiOutcome.timeoutErr

/-- The event the pipeline extracts from `primaryRow "100" "Non-Farm Payrolls"`. -/
def nfpEvent : Event :=
  ⟨"", "", "", "", "", "", "Non-Farm Payrolls", "/url", "", "", "", "Medium", "100", ""⟩

/-! ## Merge lemmas -/

theorem mergeEvents_ids_mono : ∀ (l : List Event) (p : List Event × List String)
    (x : String), x ∈ p.2 → x ∈ (mergeEvents p l).2 := by
  intro l
  induction l with
  | nil => intro p x hx; simpa [mergeEvents] using hx
  | cons e rest ih =>
    intro p x hx
    simp only [mergeEvents]
    split
    · exact ih p x hx
    · apply ih
      by_cases hid : e.event_id ≠ ""
      · simp [hid]; right; exact hx
      · simp [hid]; exact hx

theorem mergeEvents_id_recorded : ∀ (l : List Event) (p : List Event × List String)
    (e : Event), e ∈ l → e.event_id ≠ "" → e.event_id ∈ (mergeEvents p l).2 := by
  intro l
  induction l with
  | nil => intro p e h; exact absurd h (List.not_mem_nil e)
  | cons a rest ih =>
    intro p e hmem hid
    rcases List.mem_cons.mp hmem with heq | htail
    · subst heq
      simp only [mergeEvents]
      split
      · rename_i hcond
        exact mergeEvents_ids_mono rest p e.event_id hcond.2
      · apply mergeEvents_ids_mono
        simp [hid]
    · simp only [mergeEvents]
      split
      · exact ih p e htail hid
      · exact ih _ e htail hid

theorem mergeEvents_all_known : ∀ (l : List Event) (p : List Event × List String),
    (∀ e, e ∈ l → e.event_id ≠ "" → e.event_id ∈ p.2) →
    mergeEvents p l = (p.1 ++ l.filter (fun e => e.event_id == ""), p.2) := by
  intro l
  induction l with
  | nil => intro p _; simp [mergeEvents]
  | cons a rest ih =>
    intro p hknown
    simp only [mergeEvents]
    by_cases hid : a.event_id = ""
    · have hcond : ¬(a.event_id ≠ "" ∧ a.event_id ∈ p.2) := by simp [hid]
      rw [if_neg hcond, if_neg (by simp [hid] : ¬a.event_id ≠ "")]
      rw [ih (p.1 ++ [a], p.2)
        (by intro e he hne; exact hknown e (List.mem_cons_of_mem _ he) hne)]
      simp [List.filter_cons, hid]
    · have hcond : a.event_id ≠ "" ∧ a.event_id ∈ p.2 :=
        ⟨hid, hknown a (List.mem_cons_self a rest) hid⟩
      rw [if_pos hcond]
      rw [ih p (by intro e he hne; exact hknown e (List.mem_cons_of_mem _ he) hne)]
      simp [List.filter_cons, hid]

theorem mergeEvents_countP_empty : ∀ (l : List Event) (p : List Event × List String),
    (mergeEvents p l).1.countP (fun e => e.event_id == "")
      = p.1.countP (fun e => e.event_id == "") + l.countP (fun e => e.event_id == "") := by
  intro l
  induction l with
  | nil => intro p; simp [mergeEvents]
  | cons a rest ih =>
    intro p
    simp only [mergeEvents]
    split
    · rename_i hcond
      rw [ih p, List.countP_cons]
      have : (a.event_id == "") = false := by
        simp only [beq_eq_false_iff_ne, ne_eq]; exact hcond.1
      simp [this]
    · rw [ih]
      simp only [List.countP_append, List.countP_cons]
      simp [Nat.add_assoc, Nat.add_comm]
      omega

theorem mem_mergeEvents_fst : ∀ (l : List Event) (p : List Event × List String)
    (e : Event), e ∈ (mergeEvents p l).1 → e ∈ p.1 ∨ e ∈ l := by
  intro l
  induction l with
  | nil => intro p e h; left; simpa [mergeEvents] using h
  | cons a rest ih =>
    intro p e h
    simp only [mergeEvents] at h
    split at h
    · rcases ih p e h with h1 | h2
      · exact Or.inl h1
      · exact Or.inr (List.mem_cons_of_mem _ h2)
    · rcases ih _ e h with h1 | h2
      · rcases List.mem_append.mp h1 with h3 | h4
        · exact Or.inl h3
        · exact Or.inr (List.mem_cons.mpr (Or.inl (List.mem_singleton.mp h4)))
      · exact Or.inr (List.mem_cons_of_mem _ h2)

/-! ## Extraction lemmas -/

theorem process_extracted_events_impact : ∀ (raws : List RawEvent) (e : Event),
    e ∈ process_extracted_events raws →
    ∃ raw, raw ∈ raws ∧ e.impact = deriveImpact raw.impact_icons ∧ e.event ≠ "" := by
  intro raws e h
  simp only [process_extracted_events, List.mem_filterMap] at h
  obtain ⟨raw, hraw, heq⟩ := h
  refine ⟨raw, hraw, ?_⟩
  by_cases hn : cleanField raw.event = ""
  · simp [hn] at heq
  · simp only [hn, if_false, Option.some.injEq] at heq
    subst heq
    exact ⟨rfl, hn⟩

theorem deriveImpact_ne_holiday : ∀ n, deriveImpact n ≠ "Holiday" := by
  intro n
  unfold deriveImpact
  split
  · decide
  · split
    · decide
    · split <;> decide

theorem mem_extract_strategy_name_ne : ∀ (rows : List Row) (e : Event),
    e ∈ extract_events_with_strategy rows → e.event ≠ "" := by
  intro rows e h
  obtain ⟨raw, _, _, hne⟩ := process_extracted_events_impact _ e h
  exact hne

theorem parse_holiday_row_rowtype : ∀ (row : Row) (h : Event),
    parse_holiday_row row = some h → h.rowtype = "holiday" := by
  intro row h hx
  unfold parse_holiday_row at hx
  split at hx
  · split at hx
    · exact Option.noConfusion hx
    · split at hx
      · exact Option.noConfusion hx
      · simp only [Option.some.injEq] at hx
        subst hx
        rfl
  · exact Option.noConfusion hx

theorem attachDay_rowtype : ∀ (cd : Option String) (h : Event),
    (attachDay cd h).rowtype = h.rowtype := by
  intro cd h
  cases cd with
  | none => rfl
  | some d =>
    simp only [attachDay]
    split <;> rfl

theorem holidaysAux_rowtype : ∀ (rows : List Row) (cd : Option String) (e : Event),
    e ∈ holidaysAux cd rows → e.rowtype = "holiday" := by
  intro rows
  induction rows with
  | nil => intro cd e h; simp [holidaysAux] at h
  | cons row rest ih =>
    intro cd e h
    simp only [holidaysAux] at h
    split at h
    · split at h
      · exact ih _ e h
      · split at h
        · rename_i hev hr
          rcases List.mem_cons.mp h with heq | htail
          · subst heq
            rw [attachDay_rowtype]
            exact parse_holiday_row_rowtype row hev hr
          · exact ih cd e htail
        · exact ih cd e h
    · split at h
      · rename_i hev hr
        rcases List.mem_cons.mp h with heq | htail
        · subst heq
          rw [attachDay_rowtype]
          exact parse_holiday_row_rowtype row hev hr
        · exact ih cd e htail
      · exact ih cd e h

theorem mem_holidays_rowtype : ∀ (rows : List Row) (e : Event),
    e ∈ extract_holidays_fallback rows → e.rowtype = "holiday" :=
  fun rows e h => holidaysAux_rowtype rows none e h

/-! ## Loop lemmas -/

theorem scrapeLoop_none_spec (fetch : Nat → ApiOutcome) :
    ∀ (chunks : List (Nat × Nat)) (s : LoopState),
    ((scrapeLoop fetch none chunks s).events, (scrapeLoop fetch none chunks s).ids)
        = accumulateFragments (s.events, s.ids) (chunkFragments fetch s.chunkNum chunks)
      ∧ (scrapeLoop fetch none chunks s).chunkNum = s.chunkNum + chunks.length := by
  intro chunks
  induction chunks with
  | nil => intro s; exact ⟨rfl, rfl⟩
  | cons c rest ih =>
    intro s
    simp only [scrapeLoop, chunkFragments]
    rcases hf : chunkFrag (fetch (s.chunkNum + 1)) with _ | html
    · have := ih ⟨s.events, s.ids, s.chunkNum + 1, s.trace ++ [TraceEv.fetchChunk (s.chunkNum + 1) c.1 c.2]⟩
      simp only [] at this
      refine ⟨this.1, ?_⟩
      rw [this.2]
      simp [List.length_cons]
      omega
    · have := ih ⟨(mergeEvents (s.events, s.ids)
          (extract_events_with_strategy html ++ extract_holidays_fallback html)).1,
        (mergeEvents (s.events, s.ids)
          (extract_events_with_strategy html ++ extract_holidays_fallback html)).2,
        s.chunkNum + 1, s.trace ++ [TraceEv.fetchChunk (s.chunkNum + 1) c.1 c.2]⟩
      simp only [accumulateFragments] at this ⊢
      refine ⟨this.1, ?_⟩
      rw [this.2]
      simp [List.length_cons]
      omega

theorem scrapeLoop_trace_filter (fetch : Nat → ApiOutcome) (p : TraceEv → Bool)
    (hp : ∀ n a b, p (TraceEv.fetchChunk n a b) = false) :
    ∀ (maxE : Option Nat) (chunks : List (Nat × Nat)) (s : LoopState),
    (scrapeLoop fetch maxE chunks s).trace.filter p = s.trace.filter p := by
  intro maxE chunks
  induction chunks with
  | nil => intro s; rfl
  | cons c rest ih =>
    intro s
    simp only [scrapeLoop]
    rcases hf : chunkFrag (fetch (s.chunkNum + 1)) with _ | html
    · rw [ih]
      simp [List.filter_append, hp]
    · rcases maxE with _ | m
      · rw [ih]
        simp [List.filter_append, hp]
      · simp only []
        split
        · simp [List.filter_append, hp]
        · rw [ih]
          simp [List.filter_append, hp]

theorem scrapeLoop_mem (fetch : Nat → ApiOutcome) :
    ∀ (maxE : Option Nat) (chunks : List (Nat × Nat)) (s : LoopState) (e : Event),
    e ∈ (scrapeLoop fetch maxE chunks s).events →
    e ∈ s.events ∨ e.rowtype = "holiday" ∨ e.event ≠ "" := by
  intro maxE chunks
  induction chunks with
  | nil => intro s e h; exact Or.inl h
  | cons c rest ih =>
    intro s e h
    simp only [scrapeLoop] at h
    rcases hf : chunkFrag (fetch (s.chunkNum + 1)) with _ | html <;> simp only [hf] at h
    · exact ih ⟨s.events, s.ids, s.chunkNum + 1,
        s.trace ++ [TraceEv.fetchChunk (s.chunkNum + 1) c.1 c.2]⟩ e h
    · have hmerged : ∀ ev : Event,
          ev ∈ (mergeEvents (s.events, s.ids)
            (extract_events_with_strategy html ++ extract_holidays_fallback html)).1 →
          ev ∈ s.events ∨ ev.rowtype = "holiday" ∨ ev.event ≠ "" := by
        intro ev hev
        rcases mem_mergeEvents_fst _ _ ev hev with h1 | h2
        · exact Or.inl h1
        · rcases List.mem_append.mp h2 with h3 | h4
          · exact Or.inr (Or.inr (mem_extract_strategy_name_ne html ev h3))
          · exact Or.inr (Or.inl (mem_holidays_rowtype html ev h4))
      rcases maxE with _ | m
      · rcases ih _ e h with h1 | h2
        · exact hmerged e h1
        · exact Or.inr h2
      · simp only [] at h
        split at h
        · exact hmerged e h
        · rcases ih _ e h with h1 | h2
          · exact hmerged e h1
          · exact Or.inr h2

theorem scrapeLoop_some_eq_take (fetch : Nat → ApiOutcome) (m : Nat) :
    ∀ (chunks : List (Nat × Nat)) (s : LoopState),
    scrapeLoop fetch (some m) chunks s
      = scrapeLoop fetch none
          (chunks.take (stopLen fetch m s.chunkNum (s.events, s.ids) chunks)) s := by
  intro chunks
  induction chunks with
  | nil => intro s; rfl
  | cons c rest ih =>
    intro s
    simp only [scrapeLoop, stopLen]
    rcases hf : chunkFrag (fetch (s.chunkNum + 1)) with _ | html <;> simp only [hf]
    · rw [ih]
      rw [Nat.add_comm 1 (stopLen fetch m (s.chunkNum + 1) (s.events, s.ids) rest)]
      simp only [List.take_succ_cons, scrapeLoop, hf]
    · split
      · simp only [List.take_succ_cons, List.take_zero, scrapeLoop, hf]
      · rw [ih]
        rw [Nat.add_comm 1 _]
        simp only [List.take_succ_cons, scrapeLoop, hf]

theorem stopLen_le (fetch : Nat → ApiOutcome) (m : Nat) :
    ∀ (chunks : List (Nat × Nat)) (startNum : Nat) (p : List Event × List String),
    stopLen fetch m startNum p chunks ≤ chunks.length := by
  intro chunks
  induction chunks with
  | nil => intro startNum p; simp [stopLen]
  | cons c rest ih =>
    intro startNum p
    simp only [stopLen, List.length_cons]
    rcases hf : chunkFrag (fetch (startNum + 1)) with _ | html <;> simp only [hf]
    · have := ih (startNum + 1) p
      omega
    · split
      · omega
      · have := ih (startNum + 1)
          (mergeEvents p (extract_events_with_strategy html ++ extract_holidays_fallback html))
        omega

/-! ## Partition lemmas -/

theorem range'_split : ∀ (a s b : Nat),
    List.range' s (a + b) = List.range' s a ++ List.range' (s + a) b := by
  intro a
  induction a with
  | zero => intro s b; simp
  | succ a ih =>
    intro s b
    have h1 : a + 1 + b = (a + b) + 1 := by omega
    rw [h1]
    show s :: List.range' (s + 1) (a + b)
      = (s :: List.range' (s + 1) a) ++ List.range' (s + (a + 1)) b
    rw [show s + (a + 1) = (s + 1) + a from by omega, ih (s + 1) b]
    rfl

theorem partitionAux_covers : ∀ (fuel current endD dpc : Nat), 1 ≤ dpc →
    endD + 1 - current ≤ fuel →
    (partitionAux fuel current endD dpc).flatMap chunkDays
      = List.range' current (endD + 1 - current) := by
  intro fuel
  induction fuel with
  | zero =>
    intro current endD dpc _ hle
    have : endD + 1 - current = 0 := by omega
    simp [partitionAux, this]
  | succ fuel ih =>
    intro current endD dpc hdpc hle
    simp only [partitionAux]
    by_cases hcur : current ≤ endD
    · rw [if_pos hcur]
      have hc1 : current ≤ min (current + dpc - 1) endD :=
        Nat.le_min.mpr ⟨by omega, hcur⟩
      have hc2 : min (current + dpc - 1) endD ≤ endD := Nat.min_le_right _ _
      generalize hq : min (current + dpc - 1) endD = q at hc1 hc2 ⊢
      simp only [List.flatMap_cons]
      rw [ih (q + 1) endD dpc hdpc (by omega)]
      simp only [chunkDays]
      rw [show endD + 1 - current
          = (q + 1 - current) + (endD + 1 - (q + 1)) from by omega]
      rw [range'_split]
      congr 2
      omega
    · rw [if_neg hcur]
      have : endD + 1 - current = 0 := by omega
      simp [this]

/-- Helper: a single raw event with a non-empty cleaned name survives
post-processing and carries the impact derived from its icon count. -/
theorem process_singleton_impact (n : Nat) (name : String)
    (hn : cleanField name ≠ "") :
    (process_extracted_events [mkIconRaw n name]).map (fun e => e.impact)
      = [deriveImpact n] := by
  simp [process_extracted_events, mkIconRaw, hn]

/-! ## Claim theorems -/

/-- C1 (counterexample): on the extracted row with zero filled sentiment
icons and event name `Christmas Day`, `process_extracted_events` derives the
impact `Medium`, not `Holiday`: the primary extractor has no holiday-keyword
rule (lines 758-770). -/
theorem icon_zero_christmas_impact_is_medium :
    (process_extracted_events [mkIconRaw 0 "Christmas Day"]).map (fun e => e.impact)
        = ["Medium"]
      ∧ "Medium" ≠ "Holiday" :=
  ⟨by decide, by decide⟩

/-- C1 (amended): the derived impact of every extracted event row is a pure
function of the filled-icon count alone — at least 3 icons gives High,
exactly 2 Medium, exactly 1 Low, and 0 icons gives Medium regardless of the
event name; the primary extractor never assigns Holiday (that impact arises
only in the holiday fallback), so deriveImpact(0 icons, `Christmas Day`) is
Medium while deriveImpact(3 icons, `Non-Farm Payrolls`) is High. -/
theorem impact_depends_only_on_icon_count :
    (∀ (raws : List RawEvent) (e : Event), e ∈ process_extracted_events raws →
        e.impact ≠ "Holiday") ∧
    (∀ (n : Nat) (name name2 : String), cleanField name ≠ "" → cleanField name2 ≠ "" →
        (process_extracted_events [mkIconRaw n name]).map (fun e => e.impact)
          = (process_extracted_events [mkIconRaw n name2]).map (fun e => e.impact)) ∧
    (process_extracted_events [mkIconRaw 3 "Non-Farm Payrolls"]).map (fun e => e.impact)
        = ["High"] ∧
    (process_extracted_events [mkIconRaw 2 "Trade Balance"]).map (fun e => e.impact)
        = ["Medium"] ∧
    (process_extracted_events [mkIconRaw 1 "Retail Sales"]).map (fun e => e.impact)
        = ["Low"] ∧
    (process_extracted_events [mkIconRaw 0 "Christmas Day"]).map (fun e => e.impact)
        = ["Medium"] := by
  refine ⟨?_, ?_, by decide, by decide, by decide, by decide⟩
  · intro raws e h
    obtain ⟨raw, _, himp, _⟩ := process_extracted_events_impact raws e h
    rw [himp]
    exact deriveImpact_ne_holiday _
  · intro n name name2 hn hn2
    rw [process_singleton_impact n name hn, process_singleton_impact n name2 hn2]

theorem impact_depends_only_on_icon_count_witness :
    (cleanField "AAA" ≠ "" ∧ cleanField "BBB" ≠ "") ∧
    (process_extracted_events [mkIconRaw 0 "AAA"]).map (fun e => e.impact)
      = (process_extracted_events [mkIconRaw 0 "BBB"]).map (fun e => e.impact) :=
  ⟨⟨by decide, by decide⟩,
   impact_depends_only_on_icon_count.2.1 0 "AAA" "BBB" (by decide) (by decide)⟩

/-- C3 (counterexample): with a stale cached entry and a failed browser
step (`get_cookies_with_selenium` returning the empty dict), `get_cookies`
with caching enabled overwrites both the cached cookie set and the cache
timestamp (lines 560-563 run unconditionally), so the cache does not stay
unchanged on failure. -/
theorem cookie_cache_overwritten_by_failed_refresh :
    get_cookies true ⟨some [("k", "v")], some 0⟩ 5000 []
        = ([], ⟨some [], some 5000⟩)
      ∧ (⟨some [], some 5000⟩ : CookiesCacheState) ≠ ⟨some [("k", "v")], some 0⟩ :=
  ⟨by decide, by decide⟩

/-- C3 (amended): whenever caching is enabled and the cached entry is
absent or expired, `get_cookies` stores the selenium result with a fresh
timestamp regardless of success — a failed acquisition caches the empty
cookie set; with caching disabled the process-wide state is never
touched. -/
theorem cookie_cache_update_characterization :
    (∀ (st : CookiesCacheState) (now : Nat) (res : List (String × String)),
      (st.cache = none ∨ st.timestamp = none
        ∨ COOKIES_CACHE_DURATION ≤ now - st.timestamp.getD 0) →
      get_cookies true st now res = (res, ⟨some res, some now⟩)) ∧
    (∀ (st : CookiesCacheState) (now : Nat) (res : List (String × String)),
      get_cookies false st now res = (res, st)) := by
  constructor
  · intro st now res hmiss
    unfold get_cookies
    split
    · rename_i hc
      exfalso
      rcases hmiss with h | h | h
      · have := hc.2.1
        rw [h] at this
        simp at this
      · have := hc.2.2.1
        rw [h] at this
        simp at this
      · have := hc.2.2.2
        omega
    · rfl
  · intro st now res
    unfold get_cookies
    split
    · rename_i hc
      exact absurd hc.1 (by decide)
    · rfl

theorem cookie_cache_update_characterization_witness :
    ((⟨none, none⟩ : CookiesCacheState).cache = none
        ∨ (⟨none, none⟩ : CookiesCacheState).timestamp = none
        ∨ COOKIES_CACHE_DURATION ≤ 7 - (⟨none, none⟩ : CookiesCacheState).timestamp.getD 0) ∧
    get_cookies true ⟨none, none⟩ 7 [("a", "b")]
      = ([("a", "b")], ⟨some [("a", "b")], some 7⟩) :=
  ⟨Or.inl rfl,
   cookie_cache_update_characterization.1 ⟨none, none⟩ 7 [("a", "b")] (Or.inl rfl)⟩

/-- C5: merging the same incoming list a second time appends exactly the
incoming events with an empty id (their ids cannot be recorded) and leaves
the id registry unchanged, so the count of events carrying a non-empty id
never grows on a repeated merge, while one merge always appends every
empty-id incoming event. -/
theorem merge_same_list_twice_characterization :
    ∀ (evs : List Event) (ids : List String) (l : List Event),
      mergeEvents (mergeEvents (evs, ids) l) l
        = ((mergeEvents (evs, ids) l).1 ++ l.filter (fun e => e.event_id == ""),
           (mergeEvents (evs, ids) l).2) ∧
      (mergeEvents (mergeEvents (evs, ids) l) l).1.countP (fun e => !(e.event_id == ""))
        = (mergeEvents (evs, ids) l).1.countP (fun e => !(e.event_id == "")) ∧
      (mergeEvents (evs, ids) l).1.countP (fun e => e.event_id == "")
        = evs.countP (fun e => e.event_id == "")
          + l.countP (fun e => e.event_id == "") := by
  intro evs ids l
  have hfirst := mergeEvents_all_known l (mergeEvents (evs, ids) l)
    (fun e he hne => mergeEvents_id_recorded l (evs, ids) e he hne)
  refine ⟨hfirst, ?_, mergeEvents_countP_empty l (evs, ids)⟩
  rw [hfirst]
  simp only [List.countP_append]
  have hz : (l.filter (fun e => e.event_id == "")).countP (fun e => !(e.event_id == "")) = 0 := by
    rw [List.countP_eq_zero]
    intro e he
    have hmem := List.mem_filter.mp he
    simp [hmem.2]
  omega

/-- C7: parsing the raw string `2025/12/25 13:30:00` yields the ISO
timestamp `2025-12-25T13:30:00`, and whenever the raw datetime string
fails the fixed-format parse the produced event has empty
`parsed_datetime` and `day` fields (the extractor is a total function:
the `except (ValueError, TypeError): pass` of lines 782-783 is the `none`
branch here, so no exception escapes). -/
theorem date_parse_roundtrip_and_failure_empty :
    ((process_extracted_events [xmasRaw]).map (fun e => e.parsed_datetime)
        = ["2025-12-25T13:30:00"]) ∧
    (∀ (raw : RawEvent) (e : Event), parseDateTimeFixed raw.datetime = none →
      e ∈ process_extracted_events [raw] → e.parsed_datetime = "" ∧ e.day = "") := by
  refine ⟨by decide, ?_⟩
  intro raw e hparse hmem
  simp only [process_extracted_events, List.mem_filterMap, List.mem_singleton] at hmem
  obtain ⟨raw2, hr2, heq⟩ := hmem
  subst hr2
  by_cases hn : cleanField raw2.event = ""
  · simp [hn] at heq
  · have hpd : (if raw2.datetime = "" then none else parseDateTimeFixed raw2.datetime)
        = (none : Option PyDateTime) := by
      split
      · rfl
      · exact hparse
    simp only [hpd, hn, if_false, Option.some.injEq] at heq
    subst heq
    exact ⟨rfl, rfl⟩

theorem date_parse_roundtrip_and_failure_empty_witness :
    (parseDateTimeFixed badDateRaw.datetime = none) ∧
    (badDateEvent ∈ process_extracted_events [badDateRaw]) ∧
    (badDateEvent.parsed_datetime = "" ∧ badDateEvent.day = "") :=
  ⟨by decide, by decide,
   date_parse_roundtrip_and_failure_empty.2 badDateRaw badDateEvent (by decide) (by decide)⟩

/-- C8: when `get_cookies` hands back an empty cookie set, the scrape
aborts immediately (lines 953-961): the call returns failure with an empty
event list, zero counts and an error message, and the trace shows no chunk
fetch was ever issued. -/
theorem empty_cookie_set_aborts_scrape :
    ∀ (fetch : Nat → ApiOutcome) (maxE : Option Nat) (f t dpc : Nat) (usd : Bool),
      scrape_economic_calendar [] fetch maxE f t dpc usd
        = (⟨false, [], (f, t), 0, 0, some "Impossible de récupérer les cookies"⟩,
           [TraceEv.acquireCookies]) := by
  intro fetch maxE f t dpc usd
  rfl

/-- C2 (counterexample): a fragment whose holiday row has no fourth cell
passes `parse_holiday_row` (lines 1129-1163) with an empty name, and the
resulting event — name empty after trimming — reaches the final
accumulated list: the empty-name rejection exists only in the primary
extractor. -/
theorem nameless_holiday_event_reaches_final_list :
    ((scrape_economic_calendar [("c", "v")] holidayFragFetch none 0 0 1 true).1.events.map
        (fun e => e.event) = [""]) ∧
    ((scrape_economic_calendar [("c", "v")] holidayFragFetch none 0 0 1 true).1.events.map
        (fun e => e.impact) = ["Holiday"]) :=
  ⟨by decide, by decide⟩

/-- C2 (amended): every event in the final accumulated list of any scrape
either has a non-empty (already trimmed) name or came from the holiday
fallback extractor: the primary markup extractor drops empty-name rows
(lines 797-800), but `parse_holiday_row` performs no name check, so
fallback events may carry an empty name. -/
theorem final_events_named_unless_holiday_fallback :
    ∀ (cookies : List (String × String)) (fetch : Nat → ApiOutcome) (maxE : Option Nat)
      (f t dpc : Nat) (usd : Bool) (e : Event),
      e ∈ (scrape_economic_calendar cookies fetch maxE f t dpc usd).1.events →
      e.rowtype = "holiday" ∨ e.event ≠ "" := by
  intro cookies fetch maxE f t dpc usd e h
  unfold scrape_economic_calendar at h
  split at h
  · simp at h
  · split at h
    · simp at h
    · simp only [] at h
      rcases scrapeLoop_mem fetch maxE (partitionChunks f t dpc)
          ⟨[], [], 0, [TraceEv.acquireCookies]⟩ e h with h1 | h2
      · simp at h1
      · exact h2

theorem final_events_named_unless_holiday_fallback_witness :
    (nfpEvent ∈ (scrape_economic_calendar [("a", "b")] oneGoodChunkFetch none 0 1 1 true).1.events)
      ∧ (nfpEvent.rowtype = "holiday" ∨ nfpEvent.event ≠ "") :=
  ⟨by decide,
   final_events_named_unless_holiday_fallback [("a", "b")] oneGoodChunkFetch none
     0 1 1 true nfpEvent (by decide)⟩

/-- C4 (counterexample): on a run whose first two chunk fetches are both
classified as blocked (HTTP 403, the `httpx.HTTPStatusError` branch of
lines 711-720), the number of Session-Provider cache invalidations between
the two attempts is zero, not one: `scrape_economic_calendar` retries
nothing and never clears the cookie cache. -/
theorem blocked_chunks_no_invalidation_between_attempts :
    blockedFetch 1 = ApiOutcome.httpErr 403 ∧
    blockedFetch 2 = ApiOutcome.httpErr 403 ∧
    invalidationsBetweenFirstTwoFetches
        (scrape_economic_calendar [("sess", "x")] blockedFetch none 0 1 1 true).2 = 0 ∧
    invalidationsBetweenFirstTwoFetches
        (scrape_economic_calendar [("sess", "x")] blockedFetch none 0 1 1 true).2 ≠ 1 :=
  ⟨rfl, rfl, by decide, by decide⟩

/-- C4 (amended): a run performs exactly one session acquisition and zero
cache invalidations, whatever the fetch outcomes: a blocked chunk is merely
skipped and every attempt reuses the cookie set acquired at the start, so
no fresh session is ever obtained between two blocked attempts. -/
theorem scrape_never_invalidates_cookie_cache :
    ∀ (cookies : List (String × String)) (fetch : Nat → ApiOutcome) (maxE : Option Nat)
      (f t dpc : Nat) (usd : Bool),
      (scrape_economic_calendar cookies fetch maxE f t dpc usd).2.filter isInvalidateEv = []
      ∧ (scrape_economic_calendar cookies fetch maxE f t dpc usd).2.filter isAcquireEv
          = [TraceEv.acquireCookies] := by
  intro cookies fetch maxE f t dpc usd
  unfold scrape_economic_calendar
  split
  · exact ⟨rfl, rfl⟩
  · split
    · exact ⟨rfl, rfl⟩
    · simp only []
      constructor
      · rw [scrapeLoop_trace_filter fetch isInvalidateEv (fun n a b => rfl) maxE
          (partitionChunks f t dpc) ⟨[], [], 0, [TraceEv.acquireCookies]⟩]
        rfl
      · rw [scrapeLoop_trace_filter fetch isAcquireEv (fun n a b => rfl) maxE
          (partitionChunks f t dpc) ⟨[], [], 0, [TraceEv.acquireCookies]⟩]
        rfl

/-- C6: for every range and `days_per_chunk ≥ 1` the emitted chunks are
inclusive, non-overlapping and cover the range exactly — flattening the
chunks day by day reproduces the ascending day range — and the concrete
range 2025-12-02 to 2025-12-20 with one-day chunks yields exactly 19
chunks, the i-th being `(day i, day i)`. -/
theorem partition_covers_range_and_concrete_chunks :
    (∀ (f t dpc : Nat), 1 ≤ dpc →
      (partitionChunks f t dpc).flatMap chunkDays = List.range' f (t + 1 - f)) ∧
    partitionChunks (dateOrdinal 2025 12 2) (dateOrdinal 2025 12 20) 1
      = (List.range 19).map
          (fun i => (dateOrdinal 2025 12 2 + i, dateOrdinal 2025 12 2 + i)) := by
  constructor
  · intro f t dpc h
    exact partitionAux_covers (t + 1 - f) f t dpc h (Nat.le_refl _)
  · decide

theorem partition_covers_range_and_concrete_chunks_witness :
    (1 ≤ 2) ∧ (partitionChunks 5 9 2).flatMap chunkDays = List.range' 5 (9 + 1 - 5) :=
  ⟨by decide, partition_covers_range_and_concrete_chunks.1 5 9 2 (by decide)⟩

/-- C9: with a non-empty cookie set and no event limit, chunk-level fetch
failures (error outcomes or responses without markup) are skipped: the call
still reports success with no error message, every chunk is counted as
attempted, and the final events are exactly the accumulation over the
successfully fetched fragments. -/
theorem chunk_failures_skipped_not_fatal :
    ∀ (cookies : List (String × String)) (fetch : Nat → ApiOutcome) (f t dpc : Nat),
      cookies ≠ [] →
      (scrape_economic_calendar cookies fetch none f t dpc true).1.success = true ∧
      (scrape_economic_calendar cookies fetch none f t dpc true).1.error_message = none ∧
      (scrape_economic_calendar cookies fetch none f t dpc true).1.events
        = (accumulateFragments ([], [])
            (chunkFragments fetch 0 (partitionChunks f t dpc))).1 ∧
      (scrape_economic_calendar cookies fetch none f t dpc true).1.total_pages
        = (partitionChunks f t dpc).length := by
  intro cookies fetch f t dpc hc
  have hne : cookies.isEmpty = false := by
    cases cookies
    · exact absurd rfl hc
    · rfl
  simp only [scrape_economic_calendar, hne, Bool.false_eq_true, if_false, Bool.not_true]
  have hspec := scrapeLoop_none_spec fetch (partitionChunks f t dpc)
    ⟨[], [], 0, [TraceEv.acquireCookies]⟩
  refine ⟨by trivial, by trivial, ?_, ?_⟩
  · have := congrArg Prod.fst hspec.1
    simpa using this
  · simpa using hspec.2

theorem chunk_failures_skipped_not_fatal_witness :
    ([("a", "b")] ≠ ([] : List (String × String))) ∧
    (scrape_economic_calendar [("a", "b")] blockedFetch none 0 2 1 true).1.success = true :=
  ⟨by decide, (chunk_failures_skipped_not_fatal [("a", "b")] blockedFetch 0 2 1 (by decide)).1⟩

/-- C10: under a `max_events` limit the scrape still succeeds, stops only
at a chunk boundary — the number of attempted chunks is exactly the
position of the first chunk whose merge lifts the accumulated count to the
limit (all chunks when none does) — and returns the accumulated list
untruncated, so the reported total can exceed the limit, as the concrete
run with limit 2 and three events per chunk shows. -/
theorem max_events_stops_at_chunk_boundary :
    (∀ (cookies : List (String × String)) (fetch : Nat → ApiOutcome)
      (f t dpc m : Nat), cookies ≠ [] →
      (scrape_economic_calendar cookies fetch (some m) f t dpc true).1.success = true ∧
      (scrape_economic_calendar cookies fetch (some m) f t dpc true).1.error_message = none ∧
      (scrape_economic_calendar cookies fetch (some m) f t dpc true).1.total_pages
        = stopLen fetch m 0 ([], []) (partitionChunks f t dpc) ∧
      (scrape_economic_calendar cookies fetch (some m) f t dpc true).1.total_pages
        ≤ (partitionChunks f t dpc).length ∧
      (scrape_economic_calendar cookies fetch (some m) f t dpc true).1.events
        = (accumulateFragments ([], [])
            (chunkFragments fetch 0
              ((partitionChunks f t dpc).take
                (stopLen fetch m 0 ([], []) (partitionChunks f t dpc))))).1 ∧
      (scrape_economic_calendar cookies fetch (some m) f t dpc true).1.total_events
        = (scrape_economic_calendar cookies fetch (some m) f t dpc true).1.events.length) ∧
    (scrape_economic_calendar [("c", "v")] threeEventFetch (some 2) 0 5 1 true).1.total_events
        = 3 ∧
    2 < (scrape_economic_calendar [("c", "v")] threeEventFetch (some 2) 0 5 1 true).1.total_events ∧
    (scrape_economic_calendar [("c", "v")] threeEventFetch (some 2) 0 5 1 true).1.success
        = true := by
  refine ⟨?_, by decide, by decide, by decide⟩
  intro cookies fetch f t dpc m hc
  have hne : cookies.isEmpty = false := by
    cases cookies
    · exact absurd rfl hc
    · rfl
  simp only [scrape_economic_calendar, hne, Bool.false_eq_true, if_false, Bool.not_true]
  rw [scrapeLoop_some_eq_take fetch m (partitionChunks f t dpc)
    ⟨[], [], 0, [TraceEv.acquireCookies]⟩]
  simp only []
  have hk := stopLen_le fetch m (partitionChunks f t dpc) 0 ([], [])
  have hspec := scrapeLoop_none_spec fetch
    ((partitionChunks f t dpc).take (stopLen fetch m 0 ([], []) (partitionChunks f t dpc)))
    ⟨[], [], 0, [TraceEv.acquireCookies]⟩
  refine ⟨by trivial, by trivial, ?_, ?_, ?_, by trivial⟩
  · have h2 := hspec.2
    simp only [List.length_take] at h2
    simp only [h2]
    omega
  · have h2 := hspec.2
    simp only [List.length_take] at h2
    simp only [h2]
    omega
  · have := congrArg Prod.fst hspec.1
    simpa using this

theorem max_events_stops_at_chunk_boundary_witness :
    ([("c", "v")] ≠ ([] : List (String × String))) ∧
    (scrape_economic_calendar [("c", "v")] threeEventFetch (some 2) 0 5 1 true).1.success
      = true :=
  ⟨by decide,
   (max_events_stops_at_chunk_boundary.1 [("c", "v")] threeEventFetch 0 5 1 2 (by decide)).1⟩
